import Mathlib

/-!
# A shallow embedding of `ResultsStorage.py` (DOMS results persistence)

This file models, in Lean, the core persistence engine of
`analysis/webservice/algorithms/doms/ResultsStorage.py`:

* the result-tree flattener `__prepare_result`,
* the chunked, retried batch write engine
  (`__insertResults` / `__insert_result_batches`),
* the reconstruction path
  (`__retrievePrimaryData` / `__enrichPrimaryDataWithMatches` /
   `__rowToDataEntry` / `__retrieveStats` / `__retrieveParams`).

Modelling conventions:

* Python dicts are association lists (`List (String × α)`) in insertion
  order; assignment `d[k] = v` is `dset` (replace in place when the key
  exists, append otherwise), mirroring CPython dict semantics.
* Numeric store columns (Cassandra decimals/doubles) are modelled by `ℚ`;
  Python's `float(...)` conversion is treated as exact on them.
  Python's `str(...)` rendering of such a numeric is modelled by the tagged
  constructor `PVal.numStr` carrying the numeric it renders (`str` is an
  injective function of the value, so nothing is lost).
* Timestamps are milliseconds-since-epoch integers (`ℤ`); the
  `.replace(tzinfo=UTC)` call does not change the instant and is dropped.
* The opaque measurement payload (what `json.dumps` serialises and
  `json.loads` parses back) is a finite mapping `Json`; the
  dumps/loads round trip is the identity on it.
* `uuid.uuid4()` is a fresh-supply generator: a counter threaded through
  the flattener, rendered injectively to a string.
* The Cassandra session is a state value: each table is an association
  list keyed by its primary key, and an `INSERT` is an upsert (`dset`).
  Per-row write outcomes (success / exception on `future.result()`) are
  an oracle `Nat → row → Bool` indexed by the attempt number.
-/

namespace ResultsStorage

/-! ## Association-list dictionaries (Python `dict`) -/

/-- Python `k in d`. -/
def hasKey (d : List (String × α)) (k : String) : Bool :=
  d.any (fun p => p.1 == k)

/-- Python `d.get(k)` / `d[k]` lookup (first entry with the key; insertion
order guarantees at most one entry per key for dicts built with `dset`). -/
def dget? (d : List (String × α)) (k : String) : Option α :=
  (d.find? (fun p => p.1 == k)).map (·.2)

/-- Python `d[k] = v`: replace in place when present, append otherwise. -/
def dset (d : List (String × α)) (k : String) (v : α) : List (String × α) :=
  if hasKey d k then d.map (fun p => if p.1 == k then (k, v) else p)
  else d ++ [(k, v)]

/-- Apply a function to the value stored at `k`, when present. -/
def dmodify (d : List (String × α)) (k : String) (f : α → α) : List (String × α) :=
  d.map (fun p => if p.1 == k then (k, f p.2) else p)

/-- The key list of a dict, in insertion order. -/
def dkeys (d : List (String × α)) : List String :=
  d.map (·.1)

/-! ## Values stored in decoded entries (Python objects) -/

/-- The opaque measurement payload: a finite mapping of measurement name to
numeric value, as serialised by `json.dumps` and parsed by `json.loads`. -/
abbrev Json := List (String × ℚ)

/-- A Python value as it appears in a decoded data entry produced by
`__rowToDataEntry`. -/
inductive FlatVal where
  /-- Python `None`. -/
  | null : FlatVal
  /-- A Python numeric (`float(...)` of a stored column). -/
  | float (q : ℚ) : FlatVal
  /-- Python `str(...)` applied to a stored numeric: tagged by the numeric
  it renders (`str` is injective on the store's numerics). -/
  | numStr (q : ℚ) : FlatVal
  /-- A Python string. -/
  | str (s : String) : FlatVal
  /-- A timezone-aware datetime, as milliseconds since epoch (UTC). -/
  | time (t : ℤ) : FlatVal
  /-- A decoded measurement payload (`json.loads` result). -/
  | json (j : Json) : FlatVal
deriving DecidableEq, Repr

/-- A decoded data entry: a Python dict of column name to value. -/
abbrev FlatEntry := List (String × FlatVal)

/-- A value of a top-level (primary) entry in the reconstruction map: either
an ordinary decoded value, or the `"matches"` list of child entries.  (The
read path attaches children only to top-level entries, so child entries are
always `FlatEntry`s; this two-layer split mirrors that.) -/
inductive TopVal where
  /-- An ordinary decoded value. -/
  | val (v : FlatVal) : TopVal
  /-- A `"matches"` list of child data entries. -/
  | matchList (ms : List FlatEntry) : TopVal
deriving DecidableEq, Repr

/-- A top-level entry in the reconstruction map. -/
abbrev TopEntry := List (String × TopVal)

/-! ## Stored rows of `doms_data` -/

/-- One stored row of the `doms_data` table, as surfaced to the read path.
`measurement_values_json` is `none` on legacy-schema rows (attribute access
raises `AttributeError` there); those rows carry the legacy per-column
measurement map `measurement_values` instead. -/
structure DomsRow where
  id : String
  execution_id : String
  value_id : String
  primary_value_id : Option String
  x : ℚ
  y : ℚ
  source_dataset : String
  measurement_time : ℤ
  platform : Option String
  device : Option String
  measurement_values_json : Option Json
  is_primary : Bool
  depth : Option ℚ
  file_url : Option String
  measurement_values : Json
deriving DecidableEq, Repr

/-- Pad a numerator below 1000 to three digits. -/
def pad3 (n : Nat) : String :=
  if n < 10 then "00" ++ toString n
  else if n < 100 then "0" ++ toString n
  else toString n

/-- Python `f"{v:.3f}"`: fixed-point rendering with three decimals
(rounding idealised to round-to-nearest on the exact rational). -/
def fmt3 (q : ℚ) : String :=
  let n : ℤ := round (q * 1000)
  (if n < 0 then "-" else "") ++ toString (n.natAbs / 1000) ++ "." ++ pad3 (n.natAbs % 1000)

/-- The label `f"Point({float(row.x):.3f} {float(row.y):.3f})"`. -/
def pointLabel (x y : ℚ) : String :=
  "Point(" ++ fmt3 x ++ " " ++ fmt3 y ++ ")"

/-- An optional string column as a Python value. -/
def optStr : Option String → FlatVal
  | some s => .str s
  | none => .null

/-- An optional numeric column passed through `float(...)` when not `None`. -/
def optFloat : Option ℚ → FlatVal
  | some q => .float q
  | none => .null

/-- The key the decoded payload is stored under for serialised-shape rows:
`'primary' if row.is_primary else 'secondary'`. -/
def payloadKey (row : DomsRow) : String :=
  if row.is_primary then "primary" else "secondary"

/-- Model of `ResultsRetrieval.__rowToDataEntry`: build the trimmed or full base
entry, then decode the measurement payload — the serialised-text column
when the row has it (`try`), the legacy per-column map otherwise
(`except AttributeError`). -/
def rowToDataEntry (row : DomsRow) (trim_data : Bool) : FlatEntry :=
  let entry : FlatEntry :=
    if trim_data then
      [("lon", .float row.x),
       ("lat", .float row.y),
       ("source", .str row.source_dataset),
       ("time", .time row.measurement_time)]
    else
      [("platform", optStr row.platform),
       ("device", optStr row.device),
       ("lon", .numStr row.x),
       ("lat", .numStr row.y),
       ("point", .str (pointLabel row.x row.y)),
       ("time", .time row.measurement_time),
       ("depth", optFloat row.depth),
       ("fileurl", optStr row.file_url),
       ("id", .str row.value_id),
       ("source", .str row.source_dataset)]
  match row.measurement_values_json with
  | some j => dset entry (payloadKey row) (.json j)
  | none => row.measurement_values.foldl (fun e kv => dset e kv.1 (.float kv.2)) entry

/-! ## The result tree (`results` input of `insertResults`) -/

/-- The payload discriminator of a result dict: `__prepare_result` reads
`result['primary']` when that key is present, else `result['secondary']`,
else an empty payload. -/
inductive PointData where
  /-- The result dict has a `'primary'` key. -/
  | primary (j : Json) : PointData
  /-- The result dict has a `'secondary'` key (and no `'primary'`). -/
  | secondary (j : Json) : PointData
  /-- Neither key is present. -/
  | absent : PointData
deriving Repr

/-- One matched observation point of the input tree (a `result` dict):
caller-assigned point identifier, position, source, timestamp, optional
platform/device/depth, file URL, payload, and nested matches. -/
inductive MatchPoint where
  | mk : (id : String) → (lon : ℚ) → (lat : ℚ) → (source : String) →
      (time : ℤ) → (platform : Option String) → (device : Option String) →
      (depth : Option ℚ) → (fileurl : Option String) →
      (payload : PointData) → (ms : List MatchPoint) → MatchPoint
deriving Repr

/-- The caller-assigned point identifier (`result["id"]`). -/
def MatchPoint.id : MatchPoint → String
  | .mk v _ _ _ _ _ _ _ _ _ _ => v

/-- Field `result["lon"]`. -/
def MatchPoint.lon : MatchPoint → ℚ
  | .mk _ v _ _ _ _ _ _ _ _ _ => v

/-- Field `result["lat"]`. -/
def MatchPoint.lat : MatchPoint → ℚ
  | .mk _ _ v _ _ _ _ _ _ _ _ => v

/-- Field `result["source"]`. -/
def MatchPoint.source : MatchPoint → String
  | .mk _ _ _ v _ _ _ _ _ _ _ => v

/-- Field `result["time"]`. -/
def MatchPoint.time : MatchPoint → ℤ
  | .mk _ _ _ _ v _ _ _ _ _ _ => v

/-- Field `result["platform"]` when present. -/
def MatchPoint.platform : MatchPoint → Option String
  | .mk _ _ _ _ _ v _ _ _ _ _ => v

/-- Field `result["device"]` when present. -/
def MatchPoint.device : MatchPoint → Option String
  | .mk _ _ _ _ _ _ v _ _ _ _ => v

/-- Field `result["depth"]`. -/
def MatchPoint.depth : MatchPoint → Option ℚ
  | .mk _ _ _ _ _ _ _ v _ _ _ => v

/-- Field `result['fileurl']`. -/
def MatchPoint.fileurl : MatchPoint → Option String
  | .mk _ _ _ _ _ _ _ _ v _ _ => v

/-- The payload discriminator of the result dict. -/
def MatchPoint.payload : MatchPoint → PointData
  | .mk _ _ _ _ _ _ _ _ _ v _ => v

/-- Field `result["matches"]` (the empty list when the key is absent). -/
def MatchPoint.matchList : MatchPoint → List MatchPoint
  | .mk _ _ _ _ _ _ _ _ _ _ v => v

theorem MatchPoint.sizeOf_matches_lt (p : MatchPoint) :
    sizeOf p.matchList < sizeOf p := by
  cases p
  simp [MatchPoint.matchList]

/-- One prepared insert-parameter tuple of the `doms_data` insert statement,
in column order. -/
structure InsertParams where
  id : String
  execution_id : String
  value_id : String
  primary_value_id : Option String
  x : ℚ
  y : ℚ
  source_dataset : String
  measurement_time : ℤ
  platform : Option String
  device : Option String
  measurement_values_json : Json
  is_primary : Nat
  depth : Option ℚ
  file_url : Option String
deriving DecidableEq, Repr

instance : Inhabited InsertParams :=
  ⟨{ id := "", execution_id := "", value_id := "", primary_value_id := none,
     x := 0, y := 0, source_dataset := "", measurement_time := 0,
     platform := none, device := none, measurement_values_json := [],
     is_primary := 1, depth := none, file_url := none }⟩

/-- Generator `uuid.uuid4()` modelled as a fresh supply: the `k`-th generated row id.
Injective rendering of the counter. -/
def uuidGen (k : Nat) : String :=
  "urn-uuid-" ++ toString k

/-- The `insert_params` tuple built by `__prepare_result` for one `result`
dict, with `result_id = uuidGen ctr` as the fresh row id. -/
def mkInsertParams (execution_id : String) (primaryId : Option String)
    (result : MatchPoint) (ctr : Nat) : InsertParams :=
  let data : Json :=
    match result.payload with
    | .primary j => j
    | .secondary j => j
    | .absent => []
  { id := uuidGen ctr,
    execution_id := execution_id,
    value_id := result.id,
    primary_value_id := primaryId,
    x := result.lon,
    y := result.lat,
    source_dataset := result.source,
    measurement_time := result.time,
    platform := result.platform,
    device := result.device,
    measurement_values_json := data,
    is_primary := if primaryId = none then 1 else 0,
    depth := result.depth,
    file_url := result.fileurl }

mutual

/-- Model of `ResultsStorage.__prepare_result`: emit the tuple for `result`, then
recurse into `result["matches"]` passing `result["id"]` — the caller's
point identifier, not the fresh row id — as the children's `primaryId`.
The `Nat` is the fresh-uuid supply counter, threaded left to right. -/
def prepare_result (execution_id : String) (primaryId : Option String)
    (result : MatchPoint) (ctr : Nat) : List InsertParams × Nat :=
  let hd := mkInsertParams execution_id primaryId result ctr
  let rest := prepare_list execution_id result.id result.matchList (ctr + 1)
  (hd :: rest.1, rest.2)
termination_by sizeOf result
decreasing_by
  exact MatchPoint.sizeOf_matches_lt result

/-- The `for match in result["matches"]: params_list.extend(...)` loop of
`__prepare_result`, unrolled over the list of children. -/
def prepare_list (execution_id : String) (parent : String) :
    List MatchPoint → Nat → List InsertParams × Nat
  | [], ctr => ([], ctr)
  | m :: ms, ctr =>
    let r1 := prepare_result execution_id (some parent) m ctr
    let r2 := prepare_list execution_id parent ms r1.2
    (r1.1 ++ r2.1, r2.2)
termination_by ms _ => sizeOf ms
decreasing_by
  · simp only [List.cons.sizeOf_spec]
    omega
  · simp only [List.cons.sizeOf_spec]
    omega

end

/-- The `inserts` construction of `__insertResults` (lines 176–179): one
`__prepare_result` call per top-level result with `primaryId = None`,
extended in order. -/
def flatten_results (execution_id : String) :
    List MatchPoint → Nat → List InsertParams × Nat
  | [], ctr => ([], ctr)
  | r :: rs, ctr =>
    let p1 := prepare_result execution_id none r ctr
    let p2 := flatten_results execution_id rs p1.2
    (p1.1 ++ p2.1, p2.2)

mutual

/-- All points of a result tree: the root and, recursively, every point of
every child. (Specification-side helper for stating parent/child facts.) -/
def pointsOf (p : MatchPoint) : List MatchPoint :=
  p :: pointsOfList p.matchList
termination_by sizeOf p
decreasing_by
  exact MatchPoint.sizeOf_matches_lt p

/-- All points of a list of result trees. -/
def pointsOfList : List MatchPoint → List MatchPoint
  | [] => []
  | m :: ms => pointsOf m ++ pointsOfList ms
termination_by ms => sizeOf ms
decreasing_by
  · simp only [List.cons.sizeOf_spec]
    omega
  · simp only [List.cons.sizeOf_spec]
    omega

end

/-! ## The batch write engine -/

/-- The chunk bound of the write pass. -/
def BATCH_SIZE : Nat := 1024

/-- The chunking `[insert_params[i:i + BATCH_SIZE] for i in range(0, len(insert_params),
BATCH_SIZE)]`: the row sequence cut into chunks of `BATCH_SIZE`
(successive take/drop, which is what the slice comprehension computes). -/
def query_batches (l : List α) : List (List α) :=
  if l.isEmpty then []
  else l.take BATCH_SIZE :: query_batches (l.drop BATCH_SIZE)
termination_by l.length
decreasing_by
  simp only [List.length_drop]
  rename_i h
  simp only [List.isEmpty_iff] at h
  have := List.length_pos.mpr h
  simp [BATCH_SIZE]
  omega

/-- The `doms_data` table: rows keyed by their generated row id (a Cassandra
`INSERT` is an upsert on the primary key). -/
abbrev DataStore := List (String × InsertParams)

/-- Model of `ResultsStorage.__insert_result_batches`, one write pass: chunk the row
sequence, write each chunk's rows (a successful write upserts the row under
its id; a failed `future.result()` sets `move_successful = False` and writes
nothing), and return the final store with the pass-level flag.  The
submit-then-await split of the source is merged into one traversal: the
store effect of a chunk is the set of its successful row writes, and the
flag only collects failures, so the order within a chunk is immaterial. -/
def insert_result_batches (succ : InsertParams → Bool) (st : DataStore)
    (insert_params : List InsertParams) : DataStore × Bool :=
  (query_batches insert_params).foldl
    (fun acc batch =>
      batch.foldl
        (fun a entry =>
          if succ entry then (dset a.1 entry.id entry, a.2)
          else (a.1, false))
        acc)
    (st, true)

/-- The error taxonomy of the storage layer: the `ResultInsertException`
raised on retry exhaustion, and the "Execution not found" error raised by
the single-row lookups of the read path. -/
inductive StorageErr where
  | resultInsert (msg : String) : StorageErr
  | notFound (id : String) : StorageErr
deriving DecidableEq, Repr

/-- The `for i in range(5)` retry loop of `__insertResults`, entered at
attempt `i`: run a write pass; on success stop, otherwise retry while
`i < 4` and raise `ResultInsertException` on the fifth failure.  Returns
the final store, the list of attempt indices performed (instrumentation:
Python only logs them), and the raised error, if any. -/
def runInsertAttempts (oracle : Nat → InsertParams → Bool)
    (inserts : List InsertParams) (i : Nat) (st : DataStore) :
    DataStore × List Nat × Option StorageErr :=
  let pass := insert_result_batches (oracle i) st inserts
  if pass.2 then (pass.1, [i], none)
  else if i < 4 then
    let rest := runInsertAttempts oracle inserts (i + 1) pass.1
    (rest.1, i :: rest.2.1, rest.2.2)
  else (pass.1, [i], some (.resultInsert "Some result inserts failed"))
termination_by 5 - i
decreasing_by omega

/-- Model of `ResultsStorage.__insertResults`: flatten the result trees into the
insert-parameter tuples once (fresh row ids from the supply starting at
`ctr`), then run the retry loop over that one sequence. -/
def insertResultsData (oracle : Nat → InsertParams → Bool)
    (execution_id : String) (results : List MatchPoint) (ctr : Nat)
    (st : DataStore) : DataStore × List Nat × Option StorageErr :=
  let inserts := (flatten_results execution_id results ctr).1
  runInsertAttempts oracle inserts 0 st

/-! ## Bookkeeping rows and the public `insertResults` operation -/

/-- A `doms_executions` row. -/
structure ExecutionRow where
  time_started : ℤ
  time_completed : ℤ
  user_email : String
deriving DecidableEq, Repr

/-- The `params` argument of `insertResults` (a dict; `matchup` is either a
string or a list of dataset names). -/
structure ParamsInput where
  primary : String
  matchup : String ⊕ List String
  depthMin : Option ℚ
  depthMax : Option ℚ
  timeTolerance : ℤ
  radiusTolerance : ℚ
  startTime : ℤ
  endTime : ℤ
  platforms : String
  bbox : String
  parameter : Option String
deriving Repr

/-- A `doms_params` row. -/
structure ParamsRow where
  primary_dataset : String
  matchup_datasets : String
  depth_min : Option ℚ
  depth_max : Option ℚ
  time_tolerance : Option ℤ
  radius_tolerance : Option ℚ
  start_time : ℤ
  end_time : ℤ
  platforms : String
  bounding_box : String
  parameter : Option String
deriving DecidableEq, Repr

/-- The row written by `ResultsStorage.__insertParams`. -/
def mkParamsRow (p : ParamsInput) : ParamsRow :=
  { primary_dataset := p.primary,
    matchup_datasets :=
      match p.matchup with
      | .inl s => s
      | .inr l => String.intercalate "," l,
    depth_min := p.depthMin,
    depth_max := p.depthMax,
    time_tolerance := some p.timeTolerance,
    radius_tolerance := some p.radiusTolerance,
    start_time := p.startTime,
    end_time := p.endTime,
    platforms := p.platforms,
    bounding_box := p.bbox,
    parameter := p.parameter }

/-- The `stats` argument of `insertResults`. -/
structure StatsInput where
  numPrimaryMatched : ℤ
  numSecondaryMatched : ℤ
  timeToComplete : ℤ
deriving Repr

/-- A `doms_execution_stats` row. -/
structure StatsRow where
  num_gridded_matched : Option ℤ
  num_gridded_checked : Option ℤ
  num_insitu_matched : Option ℤ
  num_insitu_checked : Option ℤ
  time_to_complete : Option ℤ
deriving DecidableEq, Repr

/-- The row written by `ResultsStorage.__insertStats` (the two `checked`
columns are written as `None`). -/
def mkStatsRow (s : StatsInput) : StatsRow :=
  { num_gridded_matched := some s.numPrimaryMatched,
    num_gridded_checked := none,
    num_insitu_matched := some s.numSecondaryMatched,
    num_insitu_checked := none,
    time_to_complete := some s.timeToComplete }

/-- The write-side store: the four tables touched by `insertResults`, each
keyed by its primary key. -/
structure StoreState where
  doms_executions : List (String × ExecutionRow)
  doms_params : List (String × ParamsRow)
  doms_execution_stats : List (String × StatsRow)
  doms_data : DataStore
deriving Repr

/-- Model of `ResultsStorage.insertExecution` (with a caller-supplied id). -/
def insertExecution (st : StoreState) (execution_id : String)
    (startTime completeTime : ℤ) (userEmail : String) : StoreState :=
  { st with
    doms_executions := dset st.doms_executions execution_id ⟨startTime, completeTime, userEmail⟩ }

/-- Model of `ResultsStorage.insertResults`: write the execution row, the params row
and the stats row, then run the data write (which may raise).  A raised
`ResultInsertException` propagates as `.error`; the store keeps everything
written up to that point. -/
def insertResults (oracle : Nat → InsertParams → Bool) (st : StoreState)
    (results : List MatchPoint) (params : ParamsInput) (stats : StatsInput)
    (startTime completeTime : ℤ) (userEmail : String)
    (execution_id : String) (ctr : Nat) :
    StoreState × Except StorageErr String :=
  let st1 := insertExecution st execution_id startTime completeTime userEmail
  let st2 := { st1 with
    doms_params := dset st1.doms_params execution_id (mkParamsRow params) }
  let st3 := { st2 with
    doms_execution_stats := dset st2.doms_execution_stats execution_id (mkStatsRow stats) }
  let d := insertResultsData oracle execution_id results ctr st3.doms_data
  ({ st3 with doms_data := d.1 },
   match d.2.2 with
   | some e => .error e
   | none => .ok execution_id)

/-! ## The result reconstructor (`ResultsRetrieval`) -/

/-- A freshly decoded entry seen as a top-level entry (every value is an
ordinary decoded value; no `"matches"` key exists yet). -/
def toTopEntry (e : FlatEntry) : TopEntry :=
  e.map (fun kv => (kv.1, .val kv.2))

/-- Model of `ResultsRetrieval.__retrievePrimaryData`: decode every row of the
execution marked `is_primary = true` and map it under its `value_id`
(a dict assignment: on a duplicate point identifier the later row read
overwrites the earlier). -/
def retrievePrimaryData (rows : List DomsRow) (trim_data : Bool) :
    List (String × TopEntry) :=
  (rows.filter (fun r => r.is_primary)).foldl
    (fun dataMap row =>
      dset dataMap row.value_id (toTopEntry (rowToDataEntry row trim_data)))
    []

/-- The body of the `if`/append in `__enrichPrimaryDataWithMatches`:
`dataMap[pid]["matches"] = []` when absent, then
`dataMap[pid]["matches"].append(entry)`.  An existing `"matches"` value
that is not a list is left unchanged here (Python would raise; decoder
entries never hit that branch). -/
def appendMatch (e : TopEntry) (child : FlatEntry) : TopEntry :=
  let e1 := if hasKey e "matches" then e else dset e "matches" (.matchList [])
  dmodify e1 "matches" (fun v =>
    match v with
    | .matchList ms => .matchList (ms ++ [child])
    | v => v)

/-- One iteration of the row loop of `__enrichPrimaryDataWithMatches`:
decode the row; when its `primary_value_id` is a key of the top-level map,
append the entry to that key's `"matches"` list; otherwise (`else:
print(row)`) leave the map unchanged — the row is dropped. -/
def enrichStep (trim_data : Bool) (dataMap : List (String × TopEntry))
    (row : DomsRow) : List (String × TopEntry) :=
  let entry := rowToDataEntry row trim_data
  match row.primary_value_id with
  | none => dataMap
  | some pid =>
    match dget? dataMap pid with
    | some parent => dset dataMap pid (appendMatch parent entry)
    | none => dataMap

/-- Model of `ResultsRetrieval.__enrichPrimaryDataWithMatches`: loop the step over
every row of the execution marked `is_primary = false`. -/
def enrichPrimaryDataWithMatches (trim_data : Bool) (rows : List DomsRow)
    (dataMap : List (String × TopEntry)) : List (String × TopEntry) :=
  (rows.filter (fun r => !r.is_primary)).foldl (enrichStep trim_data) dataMap

/-- Model of `ResultsRetrieval.__retrieveData`: build the top-level map, enrich it
with the non-top-level rows, and return the values in insertion order
(`[dataMap[name] for name in dataMap]`). -/
def retrieveData (rows : List DomsRow) (trim_data : Bool) : List TopEntry :=
  let dataMap := retrievePrimaryData rows trim_data
  let dataMap := enrichPrimaryDataWithMatches trim_data rows dataMap
  dataMap.map (·.2)

/-- The dict returned by `ResultsRetrieval.__retrieveStats`. -/
structure StatsOut where
  timeToComplete : Option ℤ
  numSecondaryMatched : Option ℤ
  numPrimaryMatched : Option ℤ
deriving DecidableEq, Repr

/-- Model of `ResultsRetrieval.__retrieveStats`: a single-row lookup; when no row
matches the execution id the loop body never runs and
`Exception("Execution not found ...")` is raised. -/
def retrieveStats (stats_table : List (String × StatsRow)) (id : String) :
    Except StorageErr StatsOut :=
  match dget? stats_table id with
  | some row => .ok ⟨row.time_to_complete, row.num_insitu_matched, row.num_gridded_matched⟩
  | none => .error (.notFound id)

/-- The dict returned by `ResultsRetrieval.__retrieveParams`. -/
structure ParamsOut where
  primary : String
  matchup : String ⊕ List String
  startTime : ℤ
  endTime : ℤ
  bbox : String
  timeTolerance : Option ℤ
  radiusTolerance : Option ℚ
  platforms : String
  parameter : Option String
  depthMin : Option ℚ
  depthMax : Option ℚ
deriving DecidableEq, Repr

/-- Model of `ResultsRetrieval.__retrieveParams`: a single-row lookup; the stored
comma-joined matchup list is split back (a one-element split collapses to
the bare string); absence of a row raises "Execution not found". -/
def retrieveParams (params_table : List (String × ParamsRow)) (id : String) :
    Except StorageErr ParamsOut :=
  match dget? params_table id with
  | some row =>
    let matchup := row.matchup_datasets.splitOn ","
    .ok { primary := row.primary_dataset,
          matchup :=
            match matchup with
            | [x] => .inl x
            | l => .inr l,
          startTime := row.start_time,
          endTime := row.end_time,
          bbox := row.bounding_box,
          timeTolerance := row.time_tolerance,
          radiusTolerance := row.radius_tolerance,
          platforms := row.platforms,
          parameter := row.parameter,
          depthMin := row.depth_min,
          depthMax := row.depth_max }
  | none => .error (.notFound id)

/-- Model of `ResultsRetrieval.retrieveResults`: params, then stats (either lookup
propagates its not-found error), then the data rows of the execution. -/
def retrieveResults (params_table : List (String × ParamsRow))
    (stats_table : List (String × StatsRow)) (data_rows : List DomsRow)
    (execution_id : String) (trim_data : Bool) :
    Except StorageErr (ParamsOut × StatsOut × List TopEntry) := do
  let params ← retrieveParams params_table execution_id
  let stats ← retrieveStats stats_table execution_id
  let data := retrieveData
    (data_rows.filter (fun r => r.execution_id == execution_id)) trim_data
  return (params, stats, data)

/-- The store effect of one write pass: the successful rows upserted under
their ids, in sequence order. -/
def applyWritePass (succ : InsertParams → Bool) (st : DataStore)
    (l : List InsertParams) : DataStore :=
  l.foldl (fun s e => if succ e then dset s e.id e else s) st

/-- The last successful write of key `k` in a pass over `l`, if any. -/
def lastWrite (succ : InsertParams → Bool) (l : List InsertParams)
    (k : String) : Option InsertParams :=
  l.reverse.find? (fun e => succ e && (e.id == k))

/-- The `"matches"` list of a top-level entry (empty when absent). -/
def matchesOf (e : TopEntry) : List FlatEntry :=
  match dget? e "matches" with
  | some (.matchList ms) => ms
  | _ => []

/-! ## Concrete fixtures (used by witnesses and counterexamples) -/

/-- A child match point `M1` (a `result` dict with a `'secondary'` key). -/
def exM1 : MatchPoint :=
  ⟨"M1", 11, 21, "B", 1000, none, none, none, none, .secondary [("sst", 3)], []⟩

/-- A top-level point `P1` with one nested match `M1`. -/
def exP1 : MatchPoint :=
  ⟨"P1", 10, 20, "A", 1000, none, none, none, some "file:a", .primary [("sst", 7)], [exM1]⟩

/-- The tuple the flattener emits for `P1` (fresh row id number 0). -/
def exIP0 : InsertParams := mkInsertParams "exec1" none exP1 0

/-- The tuple the flattener emits for `M1` (fresh row id number 1). -/
def exIP1 : InsertParams := mkInsertParams "exec1" (some "P1") exM1 1

/-- A write-outcome oracle under which every row write raises. -/
def oracleFail : Nat → InsertParams → Bool := fun _ _ => false

/-- Concrete `params` input. -/
def exParams : ParamsInput :=
  ⟨"pds", Sum.inr ["m1", "m2"], none, none, 3600, 5, 0, 100, "1,2", "bbox", none⟩

/-- Concrete `stats` input. -/
def exStats : StatsInput := ⟨5, 7, 11⟩

/-- The empty store. -/
def exStore0 : StoreState := ⟨[], [], [], []⟩

/-- A stored top-level row for point `P1` (serialised payload shape). -/
def exRow1 : DomsRow :=
  ⟨"urn-uuid-0", "exec1", "P1", none, 10, 20, "A", 1000, none, none,
    some [("sst", 7)], true, none, some "file:a", []⟩

/-- A stored non-top-level row for match `M1` under `P1`. -/
def exRowM : DomsRow :=
  ⟨"urn-uuid-1", "exec1", "M1", some "P1", 11, 21, "B", 1000, none, none,
    some [("sst", 3)], false, none, none, []⟩

/-- A legacy-schema row: no serialised payload column, one legacy
measurement column `sst = 7`. -/
def exRowLegacy : DomsRow :=
  ⟨"urn-uuid-2", "exec1", "M2", some "P1", 11, 21, "B", 1000, none, none,
    none, false, none, none, [("sst", 7)]⟩

/-- The equivalent current-schema row: the same columns, the same
measurement mapping, in the serialised-text shape. -/
def exRowCurrent : DomsRow :=
  ⟨"urn-uuid-2", "exec1", "M2", some "P1", 11, 21, "B", 1000, none, none,
    some [("sst", 7)], false, none, none, []⟩

/-- A legacy-schema row whose measurement map contains a column named
`lon`, colliding with the position field of the decoded entry. -/
def exRowLegacyLon : DomsRow :=
  ⟨"urn-uuid-3", "exec1", "M3", some "P1", 1, 2, "B", 1000, none, none,
    none, false, none, none, [("lon", 999)]⟩

/-- The numeric a decoded position value denotes: both the float and the
string rendering of a stored numeric determine the numeric itself. -/
def coordOf : FlatVal → Option ℚ
  | .float q => some q
  | .numStr q => some q
  | _ => none

/-! ## Dictionary lemmas -/

theorem find?_cons_pos (p : α → Bool) (a : α) (l : List α) (h : p a = true) :
    (a :: l).find? p = some a := by
  simp [List.find?_cons, h]

theorem find?_cons_neg (p : α → Bool) (a : α) (l : List α) (h : p a = false) :
    (a :: l).find? p = l.find? p := by
  simp [List.find?_cons, h]

theorem find?_eq_none_of_hasKey_eq_false {d : List (String × α)} {k : String}
    (h : hasKey d k = false) : d.find? (fun p => p.1 == k) = none := by
  rw [List.find?_eq_none]
  rw [hasKey, List.any_eq_false] at h
  exact h

theorem find?_map_overwrite (d : List (String × α)) (k : String) (v : α) :
    (d.map (fun p => if p.1 == k then (k, v) else p)).find? (fun p => p.1 == k) =
      if hasKey d k then some (k, v) else none := by
  induction d with
  | nil => simp [hasKey]
  | cons hd tl ih =>
    obtain ⟨k1, v1⟩ := hd
    by_cases hk : k1 = k
    · subst hk
      simp [List.find?_cons, hasKey, -List.find?_map]
    · have hk' : (k1 == k) = false := by simpa using hk
      have hhk : hasKey ((k1, v1) :: tl) k = hasKey tl k := by
        simp [hasKey, hk']
      rw [hhk, List.map_cons, if_neg (by simp [hk]),
        find?_cons_neg (fun p => p.1 == k) (k1, v1) _ hk']
      exact ih

theorem find?_map_overwrite_ne (d : List (String × α)) (k : String) (v : α)
    (k' : String) (h : k' ≠ k) :
    (d.map (fun p => if p.1 == k then (k, v) else p)).find? (fun p => p.1 == k') =
      d.find? (fun p => p.1 == k') := by
  have hkk : (k == k') = false := by simp [Ne.symm h]
  induction d with
  | nil => rfl
  | cons hd tl ih =>
    obtain ⟨k1, v1⟩ := hd
    by_cases hk : k1 = k
    · subst hk
      simpa [List.find?_cons, hkk, -List.find?_map] using ih
    · have hk' : (k1 == k) = false := by simpa using hk
      by_cases hph : k1 = k'
      · subst hph
        simp [List.find?_cons, hk, hk', -List.find?_map]
      · have hph' : (k1 == k') = false := by simpa using hph
        simpa [List.find?_cons, hk, hk', hph, hph', -List.find?_map] using ih

theorem dget?_dset_self (d : List (String × α)) (k : String) (v : α) :
    dget? (dset d k v) k = some v := by
  rw [dset]
  split
  next h =>
    rw [dget?, find?_map_overwrite, if_pos h]
    rfl
  next h =>
    have h' : hasKey d k = false := by simpa using h
    rw [dget?, List.find?_append, find?_eq_none_of_hasKey_eq_false h']
    simp [List.find?_cons]

theorem dget?_dset_ne (d : List (String × α)) (k : String) (v : α)
    (k' : String) (h : k' ≠ k) : dget? (dset d k v) k' = dget? d k' := by
  rw [dset]
  split
  next hk =>
    rw [dget?, dget?, find?_map_overwrite_ne _ _ _ _ h]
  next hk =>
    have hkk : (k == k') = false := by simp [Ne.symm h]
    rw [dget?, dget?, List.find?_append]
    simp [List.find?_cons, hkk]

theorem hasKey_eq_isSome_dget? (d : List (String × α)) (k : String) :
    hasKey d k = (dget? d k).isSome := by
  induction d with
  | nil => rfl
  | cons hd tl ih =>
    obtain ⟨k1, v1⟩ := hd
    by_cases hp : k1 = k
    · subst hp
      simp [hasKey, dget?, List.find?_cons, -List.find?_map]
    · have hp' : (k1 == k) = false := by simpa using hp
      simpa [hasKey, dget?, List.find?_cons, hp, hp', -List.find?_map] using ih

theorem not_mem_dkeys_of_hasKey_eq_false {d : List (String × α)} {k : String}
    (h : hasKey d k = false) : k ∉ dkeys d := by
  rw [hasKey, List.any_eq_false] at h
  intro hmem
  obtain ⟨p, hp, hpk⟩ := List.mem_map.mp hmem
  exact h p hp (by simp [hpk])

theorem dkeys_dset_of_hasKey (d : List (String × α)) (k : String) (v : α)
    (h : hasKey d k = true) : dkeys (dset d k v) = dkeys d := by
  rw [dset, if_pos h, dkeys, dkeys, List.map_map]
  apply List.map_congr_left
  intro p _
  by_cases hk : p.1 = k
  · simp [hk]
  · simp [hk]

theorem dkeys_dset_of_not_hasKey (d : List (String × α)) (k : String) (v : α)
    (h : hasKey d k = false) : dkeys (dset d k v) = dkeys d ++ [k] := by
  rw [dset, if_neg (by simp [h])]
  simp [dkeys]

theorem nodup_dkeys_dset (d : List (String × α)) (k : String) (v : α)
    (h : (dkeys d).Nodup) : (dkeys (dset d k v)).Nodup := by
  cases hk : hasKey d k with
  | true => rw [dkeys_dset_of_hasKey _ _ _ hk]; exact h
  | false =>
    rw [dkeys_dset_of_not_hasKey _ _ _ hk]
    simp [List.nodup_append, h]
    exact not_mem_dkeys_of_hasKey_eq_false hk

theorem dget?_dmodify_self (d : List (String × α)) (k : String) (f : α → α) :
    dget? (dmodify d k f) k = (dget? d k).map f := by
  induction d with
  | nil => rfl
  | cons hd tl ih =>
    obtain ⟨k1, v1⟩ := hd
    by_cases hp : k1 = k
    · subst hp
      simp [dmodify, dget?, List.find?_cons, -List.find?_map]
    · have hp' : (k1 == k) = false := by simpa using hp
      simpa [dmodify, dget?, List.find?_cons, hp, hp', -List.find?_map] using ih

theorem dget?_dmodify_ne (d : List (String × α)) (k : String) (f : α → α)
    (k' : String) (h : k' ≠ k) : dget? (dmodify d k f) k' = dget? d k' := by
  have hkk : (k == k') = false := by simp [Ne.symm h]
  induction d with
  | nil => rfl
  | cons hd tl ih =>
    obtain ⟨k1, v1⟩ := hd
    by_cases hk : k1 = k
    · subst hk
      simpa [dmodify, dget?, List.find?_cons, hkk, -List.find?_map] using ih
    · have hk' : (k1 == k) = false := by simpa using hk
      by_cases hph : k1 = k'
      · subst hph
        simp [dmodify, dget?, List.find?_cons, hk, hk', -List.find?_map]
      · have hph' : (k1 == k') = false := by simpa using hph
        simpa [dmodify, dget?, List.find?_cons, hk, hk', hph, hph', -List.find?_map] using ih

theorem dkeys_dmodify (d : List (String × α)) (k : String) (f : α → α) :
    dkeys (dmodify d k f) = dkeys d := by
  rw [dmodify, dkeys, dkeys, List.map_map]
  apply List.map_congr_left
  intro p _
  by_cases hk : p.1 = k
  · simp [hk]
  · simp [hk]

/-! ## Write-engine lemmas -/

theorem query_batches_foldl {β : Type _} (l : List α) :
    ∀ (f : β → α → β) (init : β),
      (query_batches l).foldl (fun acc b => b.foldl f acc) init = l.foldl f init := by
  induction l using query_batches.induct with
  | case1 l hl =>
    intro f init
    rw [query_batches, if_pos hl]
    rw [List.isEmpty_iff] at hl
    subst hl
    rfl
  | case2 l hl ih =>
    intro f init
    rw [query_batches, if_neg hl]
    simp only [List.foldl_cons]
    rw [ih, ← List.foldl_append, List.take_append_drop]

theorem insert_result_batches_eq_foldl (succ : InsertParams → Bool)
    (st : DataStore) (l : List InsertParams) :
    insert_result_batches succ st l =
      l.foldl
        (fun a entry =>
          if succ entry then (dset a.1 entry.id entry, a.2) else (a.1, false))
        (st, true) := by
  rw [insert_result_batches]
  exact query_batches_foldl l _ _

theorem foldl_pair_split (succ : InsertParams → Bool) (l : List InsertParams) :
    ∀ (s : DataStore) (b : Bool),
      l.foldl
        (fun a entry =>
          if succ entry then (dset a.1 entry.id entry, a.2) else (a.1, false))
        (s, b) =
      (applyWritePass succ s l,
        l.foldl (fun bb e => if succ e then bb else false) b) := by
  induction l with
  | nil =>
    intro s b
    rfl
  | cons e l ih =>
    intro s b
    cases he : succ e with
    | true => simp [List.foldl_cons, he, ih, applyWritePass]
    | false => simp [List.foldl_cons, he, ih, applyWritePass]

theorem flag_foldl (succ : InsertParams → Bool) (l : List InsertParams) :
    ∀ b, l.foldl (fun bb e => if succ e then bb else false) b = (b && l.all succ) := by
  induction l with
  | nil =>
    intro b
    simp
  | cons e l ih =>
    intro b
    rw [List.foldl_cons, ih]
    cases he : succ e with
    | true => simp [List.all_cons, he]
    | false => simp [List.all_cons, he]

theorem insert_result_batches_fst (succ : InsertParams → Bool)
    (st : DataStore) (l : List InsertParams) :
    (insert_result_batches succ st l).1 = applyWritePass succ st l := by
  rw [insert_result_batches_eq_foldl, foldl_pair_split]

theorem insert_result_batches_snd (succ : InsertParams → Bool)
    (st : DataStore) (l : List InsertParams) :
    (insert_result_batches succ st l).2 = l.all succ := by
  rw [insert_result_batches_eq_foldl, foldl_pair_split, flag_foldl]
  simp

theorem lastWrite_cons (succ : InsertParams → Bool) (e : InsertParams)
    (l : List InsertParams) (k : String) :
    lastWrite succ (e :: l) k =
      (lastWrite succ l k).or
        (if succ e && (e.id == k) then some e else none) := by
  rw [lastWrite, lastWrite, List.reverse_cons, List.find?_append]
  congr 1
  cases hp : (succ e && (e.id == k)) with
  | true => simp [List.find?_cons, hp]
  | false => simp [List.find?_cons, hp]

theorem dget?_applyWritePass (succ : InsertParams → Bool) (l : List InsertParams) :
    ∀ (st : DataStore) (k : String),
      dget? (applyWritePass succ st l) k =
        match lastWrite succ l k with
        | some e => some e
        | none => dget? st k := by
  induction l with
  | nil =>
    intro st k
    rfl
  | cons e l ih =>
    intro st k
    have hcons : applyWritePass succ st (e :: l) =
        applyWritePass succ (if succ e then dset st e.id e else st) l := rfl
    rw [hcons, ih, lastWrite_cons]
    cases hlw : lastWrite succ l k with
    | some e' => simp
    | none =>
      cases hse : succ e with
      | false => simp [hse]
      | true =>
        by_cases hid : e.id = k
        · subst hid
          simp [hse, dget?_dset_self]
        · have hidk : k ≠ e.id := fun h => hid h.symm
          simp [hse, dget?_dset_ne _ _ _ _ hidk, (by simpa using hid : (e.id == k) = false)]

theorem lastWrite_eq_none_of_not_mem (succ : InsertParams → Bool)
    (l : List InsertParams) (k : String) (h : k ∉ l.map (·.id)) :
    lastWrite succ l k = none := by
  rw [lastWrite, List.find?_eq_none]
  intro e he
  have hel : e ∈ l := List.mem_reverse.mp he
  simp only [Bool.and_eq_true, not_and]
  intro _ hbeq
  exact absurd (List.mem_map.mpr ⟨e, hel, by simpa using hbeq⟩) h

theorem dget?_applyWritePass_of_not_mem (succ : InsertParams → Bool)
    (st : DataStore) (l : List InsertParams) (k : String)
    (h : k ∉ l.map (·.id)) :
    dget? (applyWritePass succ st l) k = dget? st k := by
  rw [dget?_applyWritePass, lastWrite_eq_none_of_not_mem _ _ _ h]

theorem dget?_applyWritePass_idem (succ : InsertParams → Bool)
    (st : DataStore) (l : List InsertParams) (k : String) :
    dget? (applyWritePass succ (applyWritePass succ st l) l) k =
      dget? (applyWritePass succ st l) k := by
  rw [dget?_applyWritePass, dget?_applyWritePass]
  cases hlw : lastWrite succ l k with
  | some e' => simp
  | none => simp [dget?_applyWritePass, hlw]

theorem nodup_dkeys_applyWritePass (succ : InsertParams → Bool)
    (l : List InsertParams) :
    ∀ st : DataStore, (dkeys st).Nodup →
      (dkeys (applyWritePass succ st l)).Nodup := by
  induction l with
  | nil =>
    intro st h
    exact h
  | cons e l ih =>
    intro st h
    have hcons : applyWritePass succ st (e :: l) =
        applyWritePass succ (if succ e then dset st e.id e else st) l := rfl
    rw [hcons]
    apply ih
    cases hse : succ e with
    | true =>
      simp only [hse, if_true]
      exact nodup_dkeys_dset _ _ _ h
    | false => simpa [hse] using h

/-! ## Retry-loop lemmas -/

theorem runInsertAttempts_eq (oracle : Nat → InsertParams → Bool)
    (inserts : List InsertParams) (i : Nat) (st : DataStore) :
    runInsertAttempts oracle inserts i st =
      if (insert_result_batches (oracle i) st inserts).2 then
        ((insert_result_batches (oracle i) st inserts).1, [i], none)
      else if i < 4 then
        ((runInsertAttempts oracle inserts (i + 1)
            (insert_result_batches (oracle i) st inserts).1).1,
          i :: (runInsertAttempts oracle inserts (i + 1)
            (insert_result_batches (oracle i) st inserts).1).2.1,
          (runInsertAttempts oracle inserts (i + 1)
            (insert_result_batches (oracle i) st inserts).1).2.2)
      else ((insert_result_batches (oracle i) st inserts).1, [i],
        some (.resultInsert "Some result inserts failed")) := by
  rw [runInsertAttempts]

theorem runInsertAttempts_nodup (oracle : Nat → InsertParams → Bool)
    (inserts : List InsertParams) (i : Nat) (st : DataStore)
    (h : (dkeys st).Nodup) :
    (dkeys (runInsertAttempts oracle inserts i st).1).Nodup := by
  rw [runInsertAttempts_eq]
  have hstore : (insert_result_batches (oracle i) st inserts).1 =
      applyWritePass (oracle i) st inserts := insert_result_batches_fst _ _ _
  by_cases h2 : (insert_result_batches (oracle i) st inserts).2 = true
  · rw [if_pos h2]
    simpa [hstore] using nodup_dkeys_applyWritePass (oracle i) inserts st h
  · rw [if_neg h2]
    by_cases h4 : i < 4
    · rw [if_pos h4]
      exact runInsertAttempts_nodup oracle inserts (i + 1) _
        (by simpa [hstore] using nodup_dkeys_applyWritePass (oracle i) inserts st h)
    · rw [if_neg h4]
      simpa [hstore] using nodup_dkeys_applyWritePass (oracle i) inserts st h
termination_by 5 - i
decreasing_by omega

theorem runInsertAttempts_untouched (oracle : Nat → InsertParams → Bool)
    (inserts : List InsertParams) (i : Nat) (st : DataStore) (k : String)
    (hk : k ∉ inserts.map (·.id)) :
    dget? (runInsertAttempts oracle inserts i st).1 k = dget? st k := by
  rw [runInsertAttempts_eq]
  have hstore : (insert_result_batches (oracle i) st inserts).1 =
      applyWritePass (oracle i) st inserts := insert_result_batches_fst _ _ _
  by_cases h2 : (insert_result_batches (oracle i) st inserts).2 = true
  · rw [if_pos h2]
    simpa [hstore] using dget?_applyWritePass_of_not_mem (oracle i) st inserts k hk
  · rw [if_neg h2]
    by_cases h4 : i < 4
    · rw [if_pos h4]
      rw [runInsertAttempts_untouched oracle inserts (i + 1) _ k hk]
      simpa [hstore] using dget?_applyWritePass_of_not_mem (oracle i) st inserts k hk
    · rw [if_neg h4]
      simpa [hstore] using dget?_applyWritePass_of_not_mem (oracle i) st inserts k hk
termination_by 5 - i
decreasing_by omega

theorem runInsertAttempts_store_spec (oracle : Nat → InsertParams → Bool)
    (inserts : List InsertParams) (i : Nat) (st : DataStore) :
    ∃ n, 1 ≤ n ∧
      (runInsertAttempts oracle inserts i st).1 =
        (List.range' i n).foldl
          (fun s j => applyWritePass (oracle j) s inserts) st := by
  rw [runInsertAttempts_eq]
  have hstore : (insert_result_batches (oracle i) st inserts).1 =
      applyWritePass (oracle i) st inserts := insert_result_batches_fst _ _ _
  by_cases h2 : (insert_result_batches (oracle i) st inserts).2 = true
  · rw [if_pos h2]
    exact ⟨1, le_rfl, by simpa using hstore⟩
  · rw [if_neg h2]
    by_cases h4 : i < 4
    · rw [if_pos h4]
      obtain ⟨n, h1, hst⟩ := runInsertAttempts_store_spec oracle inserts (i + 1)
        (insert_result_batches (oracle i) st inserts).1
      refine ⟨n + 1, by omega, ?_⟩
      have hr : List.range' i (n + 1) = i :: List.range' (i + 1) n := rfl
      rw [hr, List.foldl_cons]
      simpa [hstore] using hst
    · rw [if_neg h4]
      exact ⟨1, le_rfl, by simpa using hstore⟩
termination_by 5 - i
decreasing_by omega

theorem runInsertAttempts_exhaust (oracle : Nat → InsertParams → Bool)
    (inserts : List InsertParams) (i : Nat) (st : DataStore) (hi : i ≤ 4)
    (hall : ∀ j, i ≤ j → j ≤ 4 → inserts.all (oracle j) = false) :
    (runInsertAttempts oracle inserts i st).2.1 = List.range' i (5 - i) ∧
      (runInsertAttempts oracle inserts i st).2.2 =
        some (.resultInsert "Some result inserts failed") := by
  rw [runInsertAttempts_eq]
  have h2 : (insert_result_batches (oracle i) st inserts).2 = false := by
    rw [insert_result_batches_snd]
    exact hall i le_rfl hi
  rw [if_neg (by simp [h2])]
  by_cases h4 : i < 4
  · rw [if_pos h4]
    obtain ⟨htr, herr⟩ := runInsertAttempts_exhaust oracle inserts (i + 1)
      (insert_result_batches (oracle i) st inserts).1 (by omega)
      (fun j hj1 hj2 => hall j (by omega) hj2)
    refine ⟨?_, herr⟩
    rw [htr]
    have h5 : 5 - i = (5 - (i + 1)) + 1 := by omega
    rw [h5]
    rfl
  · have hi4 : i = 4 := by omega
    subst hi4
    rw [if_neg h4]
    exact ⟨rfl, rfl⟩
termination_by 5 - i
decreasing_by omega

theorem runInsertAttempts_success_at (oracle : Nat → InsertParams → Bool)
    (inserts : List InsertParams) (i : Nat) (st : DataStore) (k : Nat)
    (hik : i ≤ k) (hk : k ≤ 4) (hsk : inserts.all (oracle k) = true)
    (hfail : ∀ j, i ≤ j → j < k → inserts.all (oracle j) = false) :
    (runInsertAttempts oracle inserts i st).2.1 = List.range' i (k - i + 1) ∧
      (runInsertAttempts oracle inserts i st).2.2 = none := by
  rw [runInsertAttempts_eq]
  by_cases hik' : i = k
  · subst hik'
    have h2 : (insert_result_batches (oracle i) st inserts).2 = true := by
      rw [insert_result_batches_snd]
      exact hsk
    rw [if_pos h2]
    have : i - i + 1 = 1 := by omega
    rw [this]
    exact ⟨rfl, rfl⟩
  · have h2 : (insert_result_batches (oracle i) st inserts).2 = false := by
      rw [insert_result_batches_snd]
      exact hfail i le_rfl (by omega)
    rw [if_neg (by simp [h2])]
    have h4 : i < 4 := by omega
    rw [if_pos h4]
    obtain ⟨htr, herr⟩ := runInsertAttempts_success_at oracle inserts (i + 1)
      (insert_result_batches (oracle i) st inserts).1 k (by omega) hk hsk
      (fun j hj1 hj2 => hfail j (by omega) hj2)
    refine ⟨?_, herr⟩
    rw [htr]
    have h5 : k - i + 1 = (k - (i + 1) + 1) + 1 := by omega
    rw [h5]
    rfl
termination_by 5 - i
decreasing_by omega

/-! ## Flattener lemmas -/

theorem prepare_result_head (e : String) (pid : Option String)
    (res : MatchPoint) (ctr : Nat) :
    (prepare_result e pid res ctr).1 =
      mkInsertParams e pid res ctr ::
        (prepare_list e res.id res.matchList (ctr + 1)).1 := by
  rw [prepare_result]

theorem prepare_list_cons (e : String) (parent : String) (m : MatchPoint)
    (ms : List MatchPoint) (ctr : Nat) :
    (prepare_list e parent (m :: ms) ctr).1 =
      (prepare_result e (some parent) m ctr).1 ++
        (prepare_list e parent ms (prepare_result e (some parent) m ctr).2).1 := by
  rw [prepare_list]

theorem mkInsertParams_value_id (e : String) (pid : Option String)
    (res : MatchPoint) (ctr : Nat) :
    (mkInsertParams e pid res ctr).value_id = res.id := rfl

theorem mkInsertParams_primary_value_id (e : String) (pid : Option String)
    (res : MatchPoint) (ctr : Nat) :
    (mkInsertParams e pid res ctr).primary_value_id = pid := rfl

theorem prepare_list_child_mem (e : String) (parent : String) :
    ∀ (ms : List MatchPoint) (ctr : Nat) (c : MatchPoint), c ∈ ms →
      ∃ r ∈ (prepare_list e parent ms ctr).1,
        r.value_id = c.id ∧ r.primary_value_id = some parent := by
  intro ms
  induction ms with
  | nil =>
    intro ctr c hc
    cases hc
  | cons m ms ih =>
    intro ctr c hc
    rw [prepare_list_cons]
    rcases List.mem_cons.mp hc with h | h
    · subst h
      refine ⟨mkInsertParams e (some parent) c ctr, ?_, rfl, rfl⟩
      apply List.mem_append_left
      rw [prepare_result_head]
      exact List.mem_cons_self _ _
    · obtain ⟨r, hr, h1, h2⟩ := ih _ c h
      exact ⟨r, List.mem_append_right _ hr, h1, h2⟩

mutual

theorem prepare_result_deep (res : MatchPoint) :
    ∀ (e : String) (pid : Option String) (ctr : Nat),
      ∀ p ∈ pointsOf res, ∀ c ∈ p.matchList,
        ∃ r ∈ (prepare_result e pid res ctr).1,
          r.value_id = c.id ∧ r.primary_value_id = some p.id := by
  intro e pid ctr p hp c hc
  rw [pointsOf] at hp
  rcases List.mem_cons.mp hp with h | h
  · subst h
    obtain ⟨r, hr, h1, h2⟩ :=
      prepare_list_child_mem e p.id p.matchList (ctr + 1) c hc
    refine ⟨r, ?_, h1, h2⟩
    rw [prepare_result_head]
    exact List.mem_cons_of_mem _ hr
  · obtain ⟨r, hr, h1, h2⟩ :=
      prepare_list_deep res.matchList e res.id (ctr + 1) p h c hc
    refine ⟨r, ?_, h1, h2⟩
    rw [prepare_result_head]
    exact List.mem_cons_of_mem _ hr
termination_by sizeOf res
decreasing_by
  exact MatchPoint.sizeOf_matches_lt res

theorem prepare_list_deep (ms : List MatchPoint) :
    ∀ (e : String) (parent : String) (ctr : Nat),
      ∀ p ∈ pointsOfList ms, ∀ c ∈ p.matchList,
        ∃ r ∈ (prepare_list e parent ms ctr).1,
          r.value_id = c.id ∧ r.primary_value_id = some p.id := by
  intro e parent ctr p hp c hc
  match ms with
  | [] =>
    rw [pointsOfList] at hp
    cases hp
  | m :: ms' =>
    rw [pointsOfList] at hp
    rw [prepare_list_cons]
    rcases List.mem_append.mp hp with h | h
    · obtain ⟨r, hr, h1, h2⟩ := prepare_result_deep m e (some parent) ctr p h c hc
      exact ⟨r, List.mem_append_left _ hr, h1, h2⟩
    · obtain ⟨r, hr, h1, h2⟩ := prepare_list_deep ms' e parent
        (prepare_result e (some parent) m ctr).2 p h c hc
      exact ⟨r, List.mem_append_right _ hr, h1, h2⟩
termination_by sizeOf ms
decreasing_by
  · simp only [List.cons.sizeOf_spec]
    omega
  · simp only [List.cons.sizeOf_spec]
    omega

end

theorem flatten_results_cons (e : String) (r : MatchPoint)
    (rs : List MatchPoint) (ctr : Nat) :
    (flatten_results e (r :: rs) ctr).1 =
      (prepare_result e none r ctr).1 ++
        (flatten_results e rs (prepare_result e none r ctr).2).1 := by
  rw [flatten_results]

theorem flatten_results_toplevel (e : String) :
    ∀ (rs : List MatchPoint) (ctr : Nat) (res : MatchPoint), res ∈ rs →
      ∃ r ∈ (flatten_results e rs ctr).1,
        r.value_id = res.id ∧ r.primary_value_id = none := by
  intro rs
  induction rs with
  | nil =>
    intro ctr res h
    cases h
  | cons hd tl ih =>
    intro ctr res h
    rw [flatten_results_cons]
    rcases List.mem_cons.mp h with h | h
    · subst h
      refine ⟨mkInsertParams e none res ctr, ?_, rfl, rfl⟩
      apply List.mem_append_left
      rw [prepare_result_head]
      exact List.mem_cons_self _ _
    · obtain ⟨r, hr, h1, h2⟩ := ih _ res h
      exact ⟨r, List.mem_append_right _ hr, h1, h2⟩

theorem flatten_results_deep (e : String) :
    ∀ (rs : List MatchPoint) (ctr : Nat) (res : MatchPoint), res ∈ rs →
      ∀ p ∈ pointsOf res, ∀ c ∈ p.matchList,
        ∃ r ∈ (flatten_results e rs ctr).1,
          r.value_id = c.id ∧ r.primary_value_id = some p.id := by
  intro rs
  induction rs with
  | nil =>
    intro ctr res h
    cases h
  | cons hd tl ih =>
    intro ctr res h p hp c hc
    rw [flatten_results_cons]
    rcases List.mem_cons.mp h with h | h
    · subst h
      obtain ⟨r, hr, h1, h2⟩ := prepare_result_deep res e none ctr p hp c hc
      exact ⟨r, List.mem_append_left _ hr, h1, h2⟩
    · obtain ⟨r, hr, h1, h2⟩ := ih _ res h p hp c hc
      exact ⟨r, List.mem_append_right _ hr, h1, h2⟩

/-! ## Reconstruction lemmas -/

theorem dget?_eq_none_of_hasKey_false {d : List (String × α)} {k : String}
    (h : hasKey d k = false) : dget? d k = none := by
  have := hasKey_eq_isSome_dget? d k
  rw [h] at this
  exact Option.not_isSome_iff_eq_none.mp (by simp [← this])

theorem hasKey_eq_true_of_dget?_some {d : List (String × α)} {k : String}
    {v : α} (h : dget? d k = some v) : hasKey d k = true := by
  rw [hasKey_eq_isSome_dget?, h]
  rfl

theorem hasKey_iff_mem_dkeys (d : List (String × α)) (k : String) :
    hasKey d k = true ↔ k ∈ dkeys d := by
  rw [hasKey, List.any_eq_true]
  constructor
  · rintro ⟨p, hp, hpk⟩
    exact List.mem_map.mpr ⟨p, hp, by simpa using hpk⟩
  · intro h
    obtain ⟨p, hp, hpk⟩ := List.mem_map.mp h
    exact ⟨p, hp, by simpa using hpk⟩

theorem appendMatch_matches (e : TopEntry) (child : FlatEntry)
    (h : dget? e "matches" = none ∨
      ∃ ms, dget? e "matches" = some (.matchList ms)) :
    dget? (appendMatch e child) "matches" =
      some (.matchList (matchesOf e ++ [child])) := by
  rcases h with h | ⟨ms, h⟩
  · have hk : hasKey e "matches" = false := by
      rw [hasKey_eq_isSome_dget?, h]
      rfl
    rw [appendMatch]
    rw [if_neg (by simp [hk])]
    rw [dget?_dmodify_self, dget?_dset_self]
    rw [matchesOf, h]
    rfl
  · have hk : hasKey e "matches" = true := hasKey_eq_true_of_dget?_some h
    rw [appendMatch, if_pos hk, dget?_dmodify_self, h]
    rw [matchesOf, h]
    rfl

theorem appendMatch_other (e : TopEntry) (child : FlatEntry) (k : String)
    (h : k ≠ "matches") :
    dget? (appendMatch e child) k = dget? e k := by
  rw [appendMatch]
  by_cases hk : hasKey e "matches" = true
  · rw [if_pos hk, dget?_dmodify_ne _ _ _ _ h]
  · rw [if_neg hk, dget?_dmodify_ne _ _ _ _ h, dget?_dset_ne _ _ _ _ h]

theorem enrichStep_found (trim_data : Bool) (dm : List (String × TopEntry))
    (row : DomsRow) (pid : String) (parent : TopEntry)
    (hpid : row.primary_value_id = some pid)
    (hget : dget? dm pid = some parent) :
    enrichStep trim_data dm row =
      dset dm pid (appendMatch parent (rowToDataEntry row trim_data)) := by
  simp [enrichStep, hpid, hget]

theorem enrichStep_notfound (trim_data : Bool) (dm : List (String × TopEntry))
    (row : DomsRow)
    (h : row.primary_value_id = none ∨
      ∃ pid, row.primary_value_id = some pid ∧ dget? dm pid = none) :
    enrichStep trim_data dm row = dm := by
  rcases h with h | ⟨pid, hpid, hget⟩
  · simp [enrichStep, h]
  · simp [enrichStep, hpid, hget]

theorem dkeys_enrichStep (trim_data : Bool) (dm : List (String × TopEntry))
    (row : DomsRow) : dkeys (enrichStep trim_data dm row) = dkeys dm := by
  cases hpid : row.primary_value_id with
  | none => simp [enrichStep, hpid]
  | some pid =>
    cases hget : dget? dm pid with
    | none => simp [enrichStep, hpid, hget]
    | some parent =>
      rw [enrichStep_found trim_data dm row pid parent hpid hget]
      exact dkeys_dset_of_hasKey _ _ _ (hasKey_eq_true_of_dget?_some hget)

theorem hasKey_enrichStep (trim_data : Bool) (dm : List (String × TopEntry))
    (row : DomsRow) (k : String) :
    hasKey (enrichStep trim_data dm row) k = hasKey dm k := by
  cases hk : hasKey dm k with
  | true =>
    rw [hasKey_iff_mem_dkeys, dkeys_enrichStep]
    exact (hasKey_iff_mem_dkeys dm k).mp hk
  | false =>
    rw [← Bool.not_eq_true]
    rw [hasKey_iff_mem_dkeys, dkeys_enrichStep]
    intro hmem
    rw [← hasKey_iff_mem_dkeys] at hmem
    rw [hk] at hmem
    cases hmem

theorem enrichFold_filter (trim_data : Bool) :
    ∀ (rows : List DomsRow) (dm : List (String × TopEntry)),
      rows.foldl (enrichStep trim_data) dm =
        (rows.filter (fun row =>
          match row.primary_value_id with
          | some pid => hasKey dm pid
          | none => false)).foldl (enrichStep trim_data) dm := by
  intro rows
  induction rows with
  | nil =>
    intro dm
    rfl
  | cons r rows ih =>
    intro dm
    rw [List.foldl_cons]
    cases hpid : r.primary_value_id with
    | none =>
      rw [enrichStep_notfound _ _ _ (Or.inl hpid)]
      rw [List.filter_cons_of_neg (by simp [hpid])]
      exact ih dm
    | some pid =>
      cases hk : hasKey dm pid with
      | false =>
        rw [enrichStep_notfound _ _ _
          (Or.inr ⟨pid, hpid, dget?_eq_none_of_hasKey_false hk⟩)]
        rw [List.filter_cons_of_neg (by simp [hpid, hk])]
        exact ih dm
      | true =>
        rw [List.filter_cons_of_pos (by simp [hpid, hk]), List.foldl_cons]
        rw [ih (enrichStep trim_data dm r)]
        congr 1
        apply List.filter_congr
        intro row _
        cases hp : row.primary_value_id with
        | none => rfl
        | some pid' => simp [hasKey_enrichStep]

/-! ## Auxiliary facts for the claims -/

theorem runInsertAttempts_err (oracle : Nat → InsertParams → Bool)
    (inserts : List InsertParams) (i : Nat) (st : DataStore) :
    (runInsertAttempts oracle inserts i st).2.2 = none ∨
      (runInsertAttempts oracle inserts i st).2.2 =
        some (.resultInsert "Some result inserts failed") := by
  rw [runInsertAttempts_eq]
  by_cases h2 : (insert_result_batches (oracle i) st inserts).2 = true
  · rw [if_pos h2]
    exact Or.inl rfl
  · rw [if_neg h2]
    by_cases h4 : i < 4
    · rw [if_pos h4]
      exact runInsertAttempts_err oracle inserts (i + 1) _
    · rw [if_neg h4]
      exact Or.inr rfl
termination_by 5 - i
decreasing_by omega

theorem exFlatten : (flatten_results "exec1" [exP1] 0).1 = [exIP0, exIP1] := by
  rw [flatten_results_cons, prepare_result_head]
  rw [show exP1.id = "P1" from rfl, show exP1.matchList = [exM1] from rfl]
  rw [prepare_list_cons, prepare_result_head]
  rw [show exM1.matchList = ([] : List MatchPoint) from rfl]
  rw [show (prepare_list "exec1" exM1.id [] (0 + 1 + 1)) = ([], 0 + 1 + 1) from by rw [prepare_list]]
  rw [show ∀ ctr, (prepare_list "exec1" "P1" [] ctr) = ([], ctr) from fun ctr => by rw [prepare_list]]
  rw [show ∀ ctr, (flatten_results "exec1" [] ctr) = ([], ctr) from fun ctr => by rw [flatten_results]]
  simp [exIP0, exIP1]

/-! ## The claims -/

/-- C5: a single write pass over the chunked row sequence returns success
iff every individual row write in every chunk completes without raising;
any one failed row makes the pass flag false — the flag is the logical AND
(`List.all`) of all row outcomes, so no chunk's success can make the pass
succeed. -/
theorem claim_C5 (succ : InsertParams → Bool) (st : DataStore)
    (l : List InsertParams) :
    ((insert_result_batches succ st l).2 = true ↔ ∀ e ∈ l, succ e = true) ∧
    (insert_result_batches succ st l).2 = l.all succ := by
  refine ⟨?_, insert_result_batches_snd succ st l⟩
  rw [insert_result_batches_snd]
  exact List.all_eq_true

/-- C5 witness: a concrete pass with one row and an all-success outcome. -/
theorem claim_C5_witness :
    (insert_result_batches (fun _ => true) [] [exIP0]).2 =
      [exIP0].all (fun _ => true) :=
  (claim_C5 (fun _ => true) [] [exIP0]).2

/-- C2: if every one of the 5 attempts has at least one row failure, the
loop performs attempts 0–4 and raises the `ResultInsertException` error
(distinct from the not-found error); if attempt `k` has no row failure and
all earlier ones failed, no error is raised and the attempts stop at `k`. -/
theorem claim_C2 (oracle : Nat → InsertParams → Bool)
    (inserts : List InsertParams) (st : DataStore) :
    ((∀ i < 5, ∃ e ∈ inserts, oracle i e = false) →
      (runInsertAttempts oracle inserts 0 st).2.2 =
        some (.resultInsert "Some result inserts failed") ∧
      (runInsertAttempts oracle inserts 0 st).2.1 = [0, 1, 2, 3, 4]) ∧
    (∀ k < 5, (∀ e ∈ inserts, oracle k e = true) →
      (∀ j < k, ∃ e ∈ inserts, oracle j e = false) →
      (runInsertAttempts oracle inserts 0 st).2.2 = none ∧
      (runInsertAttempts oracle inserts 0 st).2.1 = List.range (k + 1)) ∧
    (∀ msg id, StorageErr.resultInsert msg ≠ StorageErr.notFound id) := by
  refine ⟨?_, ?_, by intro msg id h; cases h⟩
  · intro hfail
    have hall : ∀ j, 0 ≤ j → j ≤ 4 → inserts.all (oracle j) = false := by
      intro j _ hj
      obtain ⟨e, he, hoe⟩ := hfail j (by omega)
      rw [List.all_eq_false]
      exact ⟨e, he, by simp [hoe]⟩
    obtain ⟨htr, herr⟩ :=
      runInsertAttempts_exhaust oracle inserts 0 st (by omega) hall
    exact ⟨herr, by rw [htr]; rfl⟩
  · intro k hk hsucc hfail
    have hsk : inserts.all (oracle k) = true := List.all_eq_true.mpr hsucc
    have hf : ∀ j, 0 ≤ j → j < k → inserts.all (oracle j) = false := by
      intro j _ hj
      obtain ⟨e, he, hoe⟩ := hfail j hj
      rw [List.all_eq_false]
      exact ⟨e, he, by simp [hoe]⟩
    obtain ⟨htr, herr⟩ := runInsertAttempts_success_at oracle inserts 0 st k
      (by omega) (by omega) hsk hf
    refine ⟨herr, ?_⟩
    rw [htr, List.range_eq_range']
    norm_num

/-- C2 witness: two concrete rows and an oracle failing every write:
the loop runs attempts 0–4 and raises the write-failure error. -/
theorem claim_C2_witness :
    (runInsertAttempts oracleFail [exIP0, exIP1] 0 []).2.2 =
      some (.resultInsert "Some result inserts failed") ∧
    (runInsertAttempts oracleFail [exIP0, exIP1] 0 []).2.1 = [0, 1, 2, 3, 4] :=
  (claim_C2 oracleFail [exIP0, exIP1] []).1
    (fun _ _ => ⟨exIP0, List.mem_cons_self _ _, rfl⟩)

/-- C4: the insert tuples (with their freshly generated row ids) are built
once by the flattener; the data store after the retry loop is an iterate of
the same upsert pass over that one tuple sequence, with key-uniqueness
preserved (exactly one logical row per row id), keys outside the flattened
row ids untouched, and idempotent re-runs of a pass. -/
theorem claim_C4 (oracle : Nat → InsertParams → Bool) (e : String)
    (results : List MatchPoint) (ctr : Nat) (st : DataStore)
    (h : (dkeys st).Nodup) :
    (∃ n, 1 ≤ n ∧
      (insertResultsData oracle e results ctr st).1 =
        (List.range' 0 n).foldl
          (fun s j => applyWritePass (oracle j) s (flatten_results e results ctr).1)
          st) ∧
    (dkeys (insertResultsData oracle e results ctr st).1).Nodup ∧
    (∀ k, k ∉ (flatten_results e results ctr).1.map (·.id) →
      dget? (insertResultsData oracle e results ctr st).1 k = dget? st k) ∧
    (∀ succ l k,
      dget? (applyWritePass succ (applyWritePass succ st l) l) k =
        dget? (applyWritePass succ st l) k) := by
  have hd : insertResultsData oracle e results ctr st =
      runInsertAttempts oracle (flatten_results e results ctr).1 0 st := by
    rw [insertResultsData]
  rw [hd]
  exact ⟨runInsertAttempts_store_spec oracle _ 0 st,
    runInsertAttempts_nodup oracle _ 0 st h,
    fun k hk => runInsertAttempts_untouched oracle _ 0 st k hk,
    fun succ l k => dget?_applyWritePass_idem succ st l k⟩

/-- C4 witness: the retry loop over the flattened rows of `P1`, on the
empty store, under the all-fail oracle, leaves a store whose keys are
unique — one logical row per row id. -/
theorem claim_C4_witness :
    (dkeys (insertResultsData oracleFail "exec1" [exP1] 0 []).1).Nodup :=
  (claim_C4 oracleFail "exec1" [exP1] 0 [] (by simp [dkeys])).2.1

/-- C9: when `insertResults` propagates an error it is the write-failure
error, and the execution, params and stats rows for the execution id are
already present in the final store state — they were written before the
data write and are not rolled back. -/
theorem claim_C9 (oracle : Nat → InsertParams → Bool) (st : StoreState)
    (results : List MatchPoint) (params : ParamsInput) (stats : StatsInput)
    (startTime completeTime : ℤ) (userEmail execution_id : String)
    (ctr : Nat) (err : StorageErr)
    (h : (insertResults oracle st results params stats startTime completeTime
      userEmail execution_id ctr).2 = .error err) :
    err = .resultInsert "Some result inserts failed" ∧
    dget? (insertResults oracle st results params stats startTime completeTime
        userEmail execution_id ctr).1.doms_executions execution_id =
      some ⟨startTime, completeTime, userEmail⟩ ∧
    dget? (insertResults oracle st results params stats startTime completeTime
        userEmail execution_id ctr).1.doms_params execution_id =
      some (mkParamsRow params) ∧
    dget? (insertResults oracle st results params stats startTime completeTime
        userEmail execution_id ctr).1.doms_execution_stats execution_id =
      some (mkStatsRow stats) := by
  refine ⟨?_, ?_, ?_, ?_⟩
  · have h2 : (insertResults oracle st results params stats startTime
        completeTime userEmail execution_id ctr).2 =
        match (runInsertAttempts oracle (flatten_results execution_id results ctr).1
            0 st.doms_data).2.2 with
        | some e => Except.error e
        | none => Except.ok execution_id := rfl
    rw [h2] at h
    rcases runInsertAttempts_err oracle
      (flatten_results execution_id results ctr).1 0 st.doms_data with he | he
    · rw [he] at h
      cases h
    · rw [he] at h
      injection h with h
      exact h.symm
  · have h1 : (insertResults oracle st results params stats startTime
        completeTime userEmail execution_id ctr).1.doms_executions =
        dset st.doms_executions execution_id
          ⟨startTime, completeTime, userEmail⟩ := rfl
    rw [h1, dget?_dset_self]
  · have h1 : (insertResults oracle st results params stats startTime
        completeTime userEmail execution_id ctr).1.doms_params =
        dset st.doms_params execution_id (mkParamsRow params) := rfl
    rw [h1, dget?_dset_self]
  · have h1 : (insertResults oracle st results params stats startTime
        completeTime userEmail execution_id ctr).1.doms_execution_stats =
        dset st.doms_execution_stats execution_id (mkStatsRow stats) := rfl
    rw [h1, dget?_dset_self]

theorem insertResults_snd (oracle : Nat → InsertParams → Bool)
    (st : StoreState) (results : List MatchPoint) (params : ParamsInput)
    (stats : StatsInput) (startTime completeTime : ℤ)
    (userEmail execution_id : String) (ctr : Nat) :
    (insertResults oracle st results params stats startTime completeTime
        userEmail execution_id ctr).2 =
      match (runInsertAttempts oracle
          (flatten_results execution_id results ctr).1 0 st.doms_data).2.2 with
      | some e => Except.error e
      | none => Except.ok execution_id := rfl

/-- C9 witness: on the empty store, storing `P1` under the all-fail oracle
raises the write-failure error, yet the three bookkeeping rows for
`exec1` are present in the final state. -/
theorem claim_C9_witness :
    (StorageErr.resultInsert "Some result inserts failed" =
      .resultInsert "Some result inserts failed") ∧
    dget? (insertResults oracleFail exStore0 [exP1] exParams exStats 1 2
        "u" "exec1" 0).1.doms_executions "exec1" = some ⟨1, 2, "u"⟩ ∧
    dget? (insertResults oracleFail exStore0 [exP1] exParams exStats 1 2
        "u" "exec1" 0).1.doms_params "exec1" = some (mkParamsRow exParams) ∧
    dget? (insertResults oracleFail exStore0 [exP1] exParams exStats 1 2
        "u" "exec1" 0).1.doms_execution_stats "exec1" =
      some (mkStatsRow exStats) := by
  apply claim_C9
  have hall : ∀ j, 0 ≤ j → j ≤ 4 →
      ([exIP0, exIP1].all (oracleFail j)) = false := by
    intro j _ _
    rfl
  have hx := runInsertAttempts_exhaust oracleFail [exIP0, exIP1] 0
    exStore0.doms_data (by omega) hall
  rw [insertResults_snd, exFlatten, hx.2]

theorem exP1_rows : (prepare_result "exec1" none exP1 0).1 = [exIP0, exIP1] := by
  rw [prepare_result_head]
  rw [show exP1.id = "P1" from rfl, show exP1.matchList = [exM1] from rfl]
  rw [prepare_list_cons, prepare_result_head]
  rw [show exM1.matchList = ([] : List MatchPoint) from rfl]
  rw [show prepare_list "exec1" exM1.id [] (0 + 1 + 1) = ([], 0 + 1 + 1) from
    by rw [prepare_list]]
  rw [show ∀ ctr, prepare_list "exec1" "P1" [] ctr = ([], ctr) from
    fun ctr => by rw [prepare_list]]
  simp [exIP0, exIP1]

/-- C1 counterexample: flattening the tree `P1 → M1`, the parent row's
freshly generated row id is `urn-uuid-0`, but the child row's parent
reference field is `P1` — the caller's point identifier — not the parent's
row id.  The claim that the parent reference equals the fresh row id of
the immediate parent row is false on this input. -/
theorem claim_C1_counterexample :
    (prepare_result "exec1" none exP1 0).1.map (·.id) =
      ["urn-uuid-0", "urn-uuid-1"] ∧
    (prepare_result "exec1" none exP1 0).1.map (·.primary_value_id) =
      [none, some "P1"] ∧
    (some "P1" : Option String) ≠ some "urn-uuid-0" := by
  refine ⟨?_, ?_, by decide⟩
  · rw [exP1_rows]
    decide
  · rw [exP1_rows]
    decide

/-- C1 (amended): for every child MatchPoint flattened under a parent node,
the Flattener emits a FlatRow whose parent reference field equals the
parent's caller-assigned point identifier (`result["id"]`, the `value_id`
column) — not the parent row's freshly generated row id; top-level points
get a null parent reference. -/
theorem claim_C1_amended (e : String) (rs : List MatchPoint) (ctr : Nat) :
    (∀ res ∈ rs, ∃ r ∈ (flatten_results e rs ctr).1,
      r.value_id = res.id ∧ r.primary_value_id = none) ∧
    (∀ res ∈ rs, ∀ p ∈ pointsOf res, ∀ c ∈ p.matchList,
      ∃ r ∈ (flatten_results e rs ctr).1,
        r.value_id = c.id ∧ r.primary_value_id = some p.id) :=
  ⟨fun res h => flatten_results_toplevel e rs ctr res h,
    fun res h p hp c hc => flatten_results_deep e rs ctr res h p hp c hc⟩

/-- C1 witness: in the flattened rows of the tree `P1 → M1`, the row of the
top-level point `P1` has a null parent reference and the row of the child
`M1` references `P1`'s point identifier. -/
theorem claim_C1_witness :
    (∃ r ∈ (flatten_results "exec1" [exP1] 0).1,
      r.value_id = exP1.id ∧ r.primary_value_id = none) ∧
    (∃ r ∈ (flatten_results "exec1" [exP1] 0).1,
      r.value_id = exM1.id ∧ r.primary_value_id = some exP1.id) := by
  have h := claim_C1_amended "exec1" [exP1] 0
  refine ⟨h.1 exP1 (List.mem_cons_self _ _), ?_⟩
  exact h.2 exP1 (List.mem_cons_self _ _) exP1
    (by rw [pointsOf]; exact List.mem_cons_self _ _) exM1
    (by rw [show exP1.matchList = [exM1] from rfl]; exact List.mem_cons_self _ _)

/-- C3: during reconstruction, a non-top-level row whose stored parent
reference is a key of the top-level mapping is appended to that entry's
`"matches"` list (other keys unchanged), and a non-top-level row whose
parent reference is not a key of the mapping (or is null) is dropped: the
enrichment loop equals the same loop over only the rows whose parent
reference is found, so rows at depth ≥ 2 never reattach and only two
levels of nesting round-trip. -/
theorem claim_C3 (trim_data : Bool) :
    (∀ (dm : List (String × TopEntry)) (row : DomsRow) (pid : String)
        (parent : TopEntry),
      row.primary_value_id = some pid →
      dget? dm pid = some parent →
      (dget? parent "matches" = none ∨
        ∃ ms, dget? parent "matches" = some (.matchList ms)) →
      dget? (enrichStep trim_data dm row) pid =
        some (appendMatch parent (rowToDataEntry row trim_data)) ∧
      matchesOf (appendMatch parent (rowToDataEntry row trim_data)) =
        matchesOf parent ++ [rowToDataEntry row trim_data] ∧
      (∀ k, k ≠ pid →
        dget? (enrichStep trim_data dm row) k = dget? dm k)) ∧
    (∀ (dm : List (String × TopEntry)) (row : DomsRow),
      (row.primary_value_id = none ∨
        ∃ pid, row.primary_value_id = some pid ∧ dget? dm pid = none) →
      enrichStep trim_data dm row = dm) ∧
    (∀ (rows : List DomsRow) (dm : List (String × TopEntry)),
      enrichPrimaryDataWithMatches trim_data rows dm =
        enrichPrimaryDataWithMatches trim_data
          (rows.filter (fun row =>
            match row.primary_value_id with
            | some pid => hasKey dm pid
            | none => false)) dm) := by
  refine ⟨?_, ?_, ?_⟩
  · intro dm row pid parent hpid hget hsh
    rw [enrichStep_found trim_data dm row pid parent hpid hget]
    refine ⟨dget?_dset_self _ _ _, ?_, ?_⟩
    · rw [matchesOf, appendMatch_matches parent _ hsh]
    · intro k hk
      exact dget?_dset_ne _ _ _ _ hk
  · intro dm row h
    exact enrichStep_notfound trim_data dm row h
  · intro rows dm
    rw [enrichPrimaryDataWithMatches, enrichPrimaryDataWithMatches]
    rw [enrichFold_filter trim_data (rows.filter (fun r => !r.is_primary)) dm]
    congr 1
    rw [List.filter_filter, List.filter_filter]
    apply List.filter_congr
    intro row _
    cases hp : row.primary_value_id with
    | none => simp
    | some pid => simp [Bool.and_comm]

/-- C3 witness: the non-top-level row of `M1` whose parent reference `P1`
is a key of the top-level mapping is appended to `P1`'s matches list,
leaving other keys unchanged. -/
theorem claim_C3_witness :
    dget? (enrichStep true [("P1", toTopEntry (rowToDataEntry exRow1 true))]
        exRowM) "P1" =
      some (appendMatch (toTopEntry (rowToDataEntry exRow1 true))
        (rowToDataEntry exRowM true)) ∧
    matchesOf (appendMatch (toTopEntry (rowToDataEntry exRow1 true))
        (rowToDataEntry exRowM true)) =
      matchesOf (toTopEntry (rowToDataEntry exRow1 true)) ++
        [rowToDataEntry exRowM true] :=
  ⟨((claim_C3 true).1 [("P1", toTopEntry (rowToDataEntry exRow1 true))] exRowM
      "P1" (toTopEntry (rowToDataEntry exRow1 true)) rfl (by decide)
      (Or.inl (by decide))).1,
    ((claim_C3 true).1 [("P1", toTopEntry (rowToDataEntry exRow1 true))] exRowM
      "P1" (toTopEntry (rowToDataEntry exRow1 true)) rfl (by decide)
      (Or.inl (by decide))).2.1⟩

theorem dkeys_cons (p : String × α) (d : List (String × α)) :
    dkeys (p :: d) = p.1 :: dkeys d := rfl

theorem dget?_foldl_dset_not_mem (mv : Json) :
    ∀ (e : FlatEntry) (k : String), k ∉ dkeys mv →
      dget? (mv.foldl (fun e kv => dset e kv.1 (.float kv.2)) e) k =
        dget? e k := by
  induction mv with
  | nil =>
    intro e k _
    rfl
  | cons kv mv ih =>
    intro e k hk
    rw [List.foldl_cons]
    rw [ih _ _ (fun h => hk (by rw [dkeys_cons]; exact List.mem_cons_of_mem _ h))]
    apply dget?_dset_ne
    intro h
    exact hk (by rw [dkeys_cons, h]; exact List.mem_cons_self _ _)

theorem dget?_foldl_dset_mem (mv : Json) :
    ∀ (e : FlatEntry) (k : String) (v : ℚ), (dkeys mv).Nodup → (k, v) ∈ mv →
      dget? (mv.foldl (fun e kv => dset e kv.1 (.float kv.2)) e) k =
        some (.float v) := by
  induction mv with
  | nil =>
    intro e k v _ h
    cases h
  | cons kv mv ih =>
    intro e k v hnd hmem
    rw [dkeys_cons, List.nodup_cons] at hnd
    rw [List.foldl_cons]
    rcases List.mem_cons.mp hmem with h | h
    · obtain ⟨k1, v1⟩ := kv
      injection h.symm with h1 h2
      subst h1
      subst h2
      rw [dget?_foldl_dset_not_mem mv _ _ hnd.1]
      exact dget?_dset_self _ _ _
    · exact ih _ _ _ hnd.2 h

/-- C6 counterexample: decoding the stored row of `M1` with trim requested
also populates the decoded measurement payload under `"secondary"` — the
trimmed entry does not contain only position, source and timestamp. -/
theorem claim_C6_counterexample :
    dget? (rowToDataEntry exRowM true) "secondary" =
      some (.json [("sst", 3)]) ∧
    dkeys (rowToDataEntry exRowM true) =
      ["lon", "lat", "source", "time", "secondary"] := by
  refine ⟨by decide, by decide⟩

/-- C6 (amended): with trim requested the decoder populates position,
source and timestamp plus the decoded measurement payload field
(`primary`/`secondary` for serialised-shape rows); without trim it
populates the full field set, including the derived point label, plus the
payload field. -/
theorem claim_C6_amended (row : DomsRow) (j : Json)
    (h : row.measurement_values_json = some j) :
    dkeys (rowToDataEntry row true) =
      ["lon", "lat", "source", "time", payloadKey row] ∧
    dkeys (rowToDataEntry row false) =
      ["platform", "device", "lon", "lat", "point", "time", "depth",
        "fileurl", "id", "source", payloadKey row] := by
  constructor
  · have h1 : rowToDataEntry row true =
        dset [("lon", .float row.x), ("lat", .float row.y),
          ("source", .str row.source_dataset),
          ("time", .time row.measurement_time)]
          (payloadKey row) (.json j) := by
      simp [rowToDataEntry, h]
    rw [h1, dkeys_dset_of_not_hasKey]
    · rfl
    · cases hpk : row.is_primary <;> simp [payloadKey, hpk, hasKey]
  · have h1 : rowToDataEntry row false =
        dset [("platform", optStr row.platform), ("device", optStr row.device),
          ("lon", .numStr row.x), ("lat", .numStr row.y),
          ("point", .str (pointLabel row.x row.y)),
          ("time", .time row.measurement_time),
          ("depth", optFloat row.depth), ("fileurl", optStr row.file_url),
          ("id", .str row.value_id), ("source", .str row.source_dataset)]
          (payloadKey row) (.json j) := by
      simp [rowToDataEntry, h]
    rw [h1, dkeys_dset_of_not_hasKey]
    · rfl
    · cases hpk : row.is_primary <;> simp [payloadKey, hpk, hasKey]

/-- C6 witness: the key sets of the trimmed and full decodings of the
stored row of `M1`. -/
theorem claim_C6_witness :
    dkeys (rowToDataEntry exRowM true) =
      ["lon", "lat", "source", "time", payloadKey exRowM] ∧
    dkeys (rowToDataEntry exRowM false) =
      ["platform", "device", "lon", "lat", "point", "time", "depth",
        "fileurl", "id", "source", payloadKey exRowM] :=
  claim_C6_amended exRowM [("sst", 3)] rfl

/-- C7 counterexample: two rows that agree on every ordinary column and
carry the same measurement mapping `{sst: 7}`, one in the legacy
per-column shape and one in the serialised-text shape, decode to different
entries: the legacy row flattens `sst` into a top-level float key, the
current row nests the mapping under `secondary`. -/
theorem claim_C7_counterexample :
    rowToDataEntry exRowLegacy false ≠ rowToDataEntry exRowCurrent false ∧
    dget? (rowToDataEntry exRowLegacy false) "sst" = some (.float 7) ∧
    dget? (rowToDataEntry exRowCurrent false) "sst" = none ∧
    dget? (rowToDataEntry exRowCurrent false) "secondary" =
      some (.json [("sst", 7)]) ∧
    dget? (rowToDataEntry exRowLegacy false) "secondary" = none := by
  refine ⟨?_, by decide, by decide, by decide, by decide⟩
  intro heq
  have h2 : dget? (rowToDataEntry exRowLegacy false) "sst" =
      dget? (rowToDataEntry exRowCurrent false) "sst" := by rw [heq]
  rw [show dget? (rowToDataEntry exRowLegacy false) "sst" =
      some (.float 7) from by decide,
    show dget? (rowToDataEntry exRowCurrent false) "sst" = none from
      by decide] at h2
  cases h2

/-- C7 (amended): the decoder tries the serialised-text column first — when
it is present the legacy columns are ignored entirely — and falls back to
the legacy per-column map only when it is absent; but the two on-disk
shapes decode to different entry shapes: a serialised payload lands nested
under the single `primary`/`secondary` key, while legacy measurements are
flattened into top-level float-valued keys. -/
theorem claim_C7_amended (row : DomsRow) (t : Bool) :
    (∀ j mv1 mv2, row.measurement_values_json = some j →
      rowToDataEntry { row with measurement_values := mv1 } t =
        rowToDataEntry { row with measurement_values := mv2 } t) ∧
    (∀ j, row.measurement_values_json = some j →
      dget? (rowToDataEntry row t) (payloadKey row) = some (.json j)) ∧
    (row.measurement_values_json = none →
      (dkeys row.measurement_values).Nodup →
      ∀ k v, (k, v) ∈ row.measurement_values →
        dget? (rowToDataEntry row t) k = some (.float v)) := by
  refine ⟨?_, ?_, ?_⟩
  · intro j mv1 mv2 h
    cases t <;> simp [rowToDataEntry, h, payloadKey]
  · intro j h
    cases t <;> simp [rowToDataEntry, h, payloadKey, dget?_dset_self]
  · intro h hnd k v hmem
    cases t <;> simp only [rowToDataEntry, h] <;>
      exact dget?_foldl_dset_mem _ _ _ _ hnd hmem

/-- C7 witness: the serialised-shape row of `M2` decodes independently of
its legacy columns and nests its payload under `secondary`, while the
legacy-shape row of `M2` decodes `sst` to a top-level float key. -/
theorem claim_C7_witness :
    rowToDataEntry { exRowCurrent with measurement_values := [("zzz", 1)] }
        false =
      rowToDataEntry { exRowCurrent with measurement_values := [] } false ∧
    dget? (rowToDataEntry exRowCurrent false) (payloadKey exRowCurrent) =
      some (.json [("sst", 7)]) ∧
    dget? (rowToDataEntry exRowLegacy false) "sst" = some (.float 7) :=
  ⟨(claim_C7_amended exRowCurrent false).1 [("sst", 7)] [("zzz", 1)] [] rfl,
    (claim_C7_amended exRowCurrent false).2.1 [("sst", 7)] rfl,
    (claim_C7_amended exRowLegacy false).2.2 rfl (by decide) "sst" 7
      (by decide)⟩

/-- C10 counterexample: on a legacy-shape row whose measurement map has a
column named `lon`, the decoded `lon` is the payload float `999` in both
decodings — without trim it is not the string rendering of the stored
coordinate, and neither decoding describes the stored `x = 1`. -/
theorem claim_C10_counterexample :
    dget? (rowToDataEntry exRowLegacyLon false) "lon" = some (.float 999) ∧
    some (FlatVal.float 999) ≠ some (FlatVal.numStr exRowLegacyLon.x) ∧
    dget? (rowToDataEntry exRowLegacyLon true) "lon" = some (.float 999) ∧
    some (FlatVal.float 999) ≠ some (FlatVal.float exRowLegacyLon.x) := by
  refine ⟨by decide, by decide, by decide, by decide⟩

/-- C10 (amended): for every row whose measurement payload is serialised
(or whose legacy measurement names avoid `lon` and `lat`), the position
fields' type depends on the trim flag — trim yields the floats
`float(row.x)`, `float(row.y)`; no trim yields the string renderings
`str(row.x)`, `str(row.y)` — and both decodings carry the same stored
coordinates. -/
theorem claim_C10_amended (row : DomsRow)
    (h : (∃ j, row.measurement_values_json = some j) ∨
      (row.measurement_values_json = none ∧
        hasKey row.measurement_values "lon" = false ∧
        hasKey row.measurement_values "lat" = false)) :
    dget? (rowToDataEntry row true) "lon" = some (.float row.x) ∧
    dget? (rowToDataEntry row true) "lat" = some (.float row.y) ∧
    dget? (rowToDataEntry row false) "lon" = some (.numStr row.x) ∧
    dget? (rowToDataEntry row false) "lat" = some (.numStr row.y) ∧
    coordOf (.float row.x) = coordOf (.numStr row.x) ∧
    coordOf (.float row.y) = coordOf (.numStr row.y) := by
  have hpk : payloadKey row ≠ "lon" ∧ payloadKey row ≠ "lat" := by
    cases hp : row.is_primary <;> simp [payloadKey, hp]
  rcases h with ⟨j, hj⟩ | ⟨hj, hlon, hlat⟩
  · have ht : rowToDataEntry row true =
        dset [("lon", .float row.x), ("lat", .float row.y),
          ("source", .str row.source_dataset),
          ("time", .time row.measurement_time)]
          (payloadKey row) (.json j) := by
      simp [rowToDataEntry, hj]
    have hf : rowToDataEntry row false =
        dset [("platform", optStr row.platform), ("device", optStr row.device),
          ("lon", .numStr row.x), ("lat", .numStr row.y),
          ("point", .str (pointLabel row.x row.y)),
          ("time", .time row.measurement_time),
          ("depth", optFloat row.depth), ("fileurl", optStr row.file_url),
          ("id", .str row.value_id), ("source", .str row.source_dataset)]
          (payloadKey row) (.json j) := by
      simp [rowToDataEntry, hj]
    refine ⟨?_, ?_, ?_, ?_, rfl, rfl⟩
    · rw [ht, dget?_dset_ne _ _ _ _ (Ne.symm hpk.1)]
      rfl
    · rw [ht, dget?_dset_ne _ _ _ _ (Ne.symm hpk.2)]
      rfl
    · rw [hf, dget?_dset_ne _ _ _ _ (Ne.symm hpk.1)]
      rfl
    · rw [hf, dget?_dset_ne _ _ _ _ (Ne.symm hpk.2)]
      rfl
  · have ht : rowToDataEntry row true =
        row.measurement_values.foldl (fun e kv => dset e kv.1 (.float kv.2))
          [("lon", .float row.x), ("lat", .float row.y),
            ("source", .str row.source_dataset),
            ("time", .time row.measurement_time)] := by
      simp [rowToDataEntry, hj]
    have hf : rowToDataEntry row false =
        row.measurement_values.foldl (fun e kv => dset e kv.1 (.float kv.2))
          [("platform", optStr row.platform), ("device", optStr row.device),
            ("lon", .numStr row.x), ("lat", .numStr row.y),
            ("point", .str (pointLabel row.x row.y)),
            ("time", .time row.measurement_time),
            ("depth", optFloat row.depth), ("fileurl", optStr row.file_url),
            ("id", .str row.value_id), ("source", .str row.source_dataset)] := by
      simp [rowToDataEntry, hj]
    refine ⟨?_, ?_, ?_, ?_, rfl, rfl⟩
    · rw [ht, dget?_foldl_dset_not_mem _ _ _
        (not_mem_dkeys_of_hasKey_eq_false hlon)]
      rfl
    · rw [ht, dget?_foldl_dset_not_mem _ _ _
        (not_mem_dkeys_of_hasKey_eq_false hlat)]
      rfl
    · rw [hf, dget?_foldl_dset_not_mem _ _ _
        (not_mem_dkeys_of_hasKey_eq_false hlon)]
      rfl
    · rw [hf, dget?_foldl_dset_not_mem _ _ _
        (not_mem_dkeys_of_hasKey_eq_false hlat)]
      rfl

/-- C10 witness: the serialised-shape row of `M2`: trim decodes the
position as floats, no trim as string renderings, both of the stored
coordinates. -/
theorem claim_C10_witness :
    dget? (rowToDataEntry exRowCurrent true) "lon" =
      some (.float exRowCurrent.x) ∧
    dget? (rowToDataEntry exRowCurrent true) "lat" =
      some (.float exRowCurrent.y) ∧
    dget? (rowToDataEntry exRowCurrent false) "lon" =
      some (.numStr exRowCurrent.x) ∧
    dget? (rowToDataEntry exRowCurrent false) "lat" =
      some (.numStr exRowCurrent.y) ∧
    coordOf (.float exRowCurrent.x) = coordOf (.numStr exRowCurrent.x) ∧
    coordOf (.float exRowCurrent.y) = coordOf (.numStr exRowCurrent.y) :=
  claim_C10_amended exRowCurrent (Or.inl ⟨[("sst", 7)], rfl⟩)

/-- C8: whenever the params lookup or the stats lookup for an execution id
finds no row, `retrieveResults` fails with the not-found error for that
id — an error distinct from the write-failure error — regardless of
whether data rows exist for the execution. -/
theorem claim_C8 (params_table : List (String × ParamsRow))
    (stats_table : List (String × StatsRow)) (data_rows : List DomsRow)
    (id : String) (trim_data : Bool)
    (h : dget? params_table id = none ∨ dget? stats_table id = none) :
    retrieveResults params_table stats_table data_rows id trim_data =
      .error (.notFound id) ∧
    (∀ msg, StorageErr.notFound id ≠ .resultInsert msg) := by
  refine ⟨?_, fun msg hmsg => by cases hmsg⟩
  rcases h with h | h
  · simp [retrieveResults, retrieveParams, h, Bind.bind, Except.bind,
      Functor.map, Except.map]
  · cases hp : dget? params_table id with
    | none =>
      simp [retrieveResults, retrieveParams, hp, Bind.bind, Except.bind,
        Functor.map, Except.map]
    | some row =>
      simp [retrieveResults, retrieveParams, retrieveStats, hp, h, Bind.bind,
        Except.bind, Functor.map, Except.map]

/-- C8 witness: an execution id with a params row but no stats row, and
with data rows present, still fails with the not-found error. -/
theorem claim_C8_witness :
    retrieveResults [("exec1", mkParamsRow exParams)] [] [exRow1, exRowM]
      "exec1" false = .error (.notFound "exec1") :=
  (claim_C8 [("exec1", mkParamsRow exParams)] [] [exRow1, exRowM] "exec1"
    false (Or.inr rfl)).1

end ResultsStorage
